import Mathlib

/-!
Verification development for the OllamaFixer editor extension.

The definitions below are a shallow embedding of the repository's source:
- `RetryManager.withRetry` and `RetryManager.defaultIsRetryable`
  (src/unnamed/part_002, `utils/retry.ts`);
- `OllamaCodeFixerChatProvider.getOllamaResponse` (src/unnamed/part_000,
  `chatProvider.ts`);
- `getCorrectionFromOllama` and the `ollama-code-fixer.fixSelectedCode`
  command (src/unnamed/part_001, the extension entry point).

Numbers that are JavaScript `number`s (delays, multipliers) are embedded as
rationals with exact arithmetic; attempt counters are naturals.  Asynchronous
operations are determinized by indexing each invocation: an operation that is
called repeatedly is a function from its (1-based) invocation number to an
`Except` value, `Except.error` standing for a rejected promise / thrown
exception and `Except.ok` for a fulfilled one.
-/

namespace OllamaFixer

instance {ε α : Type _} [DecidableEq ε] [DecidableEq α] :
    DecidableEq (Except ε α) := fun x y =>
  match x, y with
  | Except.ok a, Except.ok b =>
    if h : a = b then Decidable.isTrue (by rw [h])
    else Decidable.isFalse (by simp [h])
  | Except.error a, Except.error b =>
    if h : a = b then Decidable.isTrue (by rw [h])
    else Decidable.isFalse (by simp [h])
  | Except.ok _, Except.error _ => Decidable.isFalse (by simp)
  | Except.error _, Except.ok _ => Decidable.isFalse (by simp)

/-! ## Retry engine (src/unnamed/part_002) -/

/-- Structure `RetryOptions` from retry.ts: `{ maxRetries, retryDelay, backoffMultiplier }`.
`retryDelay` and `backoffMultiplier` are JS numbers, embedded as rationals. -/
structure RetryOptions where
  maxRetries : Nat
  retryDelay : ℚ
  backoffMultiplier : ℚ
deriving DecidableEq, Repr

/-- The shape of a failure as inspected by `defaultIsRetryable`: whether it is
an `AxiosError`, the `response.status` when a response is present, and the
transport-level `code` field. -/
structure AxiosErrorInfo where
  isAxiosError : Bool
  /-- `error.response?.status`; `none` means no response object at all. -/
  status : Option Nat
  /-- `error.code`; `none` embeds JS `undefined`. -/
  code : Option String
deriving DecidableEq, Repr

/-- Method `RetryManager.defaultIsRetryable` (retry.ts lines 62-90): an `AxiosError`
with no response is retryable iff its code is among
ETIMEDOUT/ECONNRESET/ECONNREFUSED (`error.code || ''` is embedded by
`Option.getD`); with a response, iff the status is among
408/429/500/502/503/504; a non-Axios error is never retryable. -/
def defaultIsRetryable (e : AxiosErrorInfo) : Bool :=
  if e.isAxiosError then
    match e.status with
    | none => (["ETIMEDOUT", "ECONNRESET", "ECONNREFUSED"] : List String).contains
        (e.code.getD "")
    | some s => ([408, 429, 500, 502, 503, 504] : List Nat).contains s
  else
    false

/-- Loop body of `withRetry` (retry.ts lines 24-61).  `a` is the 1-based
attempt counter, `d` the current delay, `ds` the delays slept so far (most
recent first), `fuel` the number of retries still possible
(`maxRetries + 1 - a`, so the recursion is structural).  Returns
(number of invocations of `op`, delays slept in order, final outcome);
`Except.error` embeds `throw lastError`. -/
def withRetryGo (op : Nat → Except ε α) (isR : ε → Bool) (mr : Nat) (mult : ℚ) :
    Nat → Nat → ℚ → List ℚ → Nat × List ℚ × Except ε α
  | 0, a, _, ds =>
    -- fuel 0 holds exactly at attempt `maxRetries + 1`: a success returns its
    -- value, a failure fails the `attempt <= maxRetries` guard, breaks and is
    -- re-thrown as `lastError`; either way the outcome is `op a` and no
    -- further delay is slept.
    (a, ds.reverse, op a)
  | fuel + 1, a, d, ds =>
    match op a with
    | Except.ok v => (a, ds.reverse, Except.ok v)
    | Except.error e =>
      if a ≤ mr && isR e then
        withRetryGo op isR mr mult fuel (a + 1) (d * mult) (d :: ds)
      else
        (a, ds.reverse, Except.error e)

/-- Method `RetryManager.withRetry` (retry.ts lines 24-61): attempts `op` starting at
attempt 1 with the configured initial delay; on a failure at attempt
`a ≤ maxRetries` that `isR` classifies retryable it sleeps the current delay,
multiplies it by the backoff multiplier and re-invokes `op`; otherwise it
stops at once and surfaces the last failure.  The fuel `opts.maxRetries`
reaches 0 exactly at attempt `maxRetries + 1`, where the loop's
`attempt <= maxRetries` guard is false as well, so the fuel cutoff and the
source's loop bound coincide. -/
def withRetry (opts : RetryOptions) (op : Nat → Except ε α) (isR : ε → Bool) :
    Nat × List ℚ × Except ε α :=
  withRetryGo op isR opts.maxRetries opts.backoffMultiplier opts.maxRetries 1
    opts.retryDelay []

/-- Number of invocations of the operation performed by `withRetry`. -/
def retryCalls (opts : RetryOptions) (op : Nat → Except ε α) (isR : ε → Bool) : Nat :=
  (withRetry opts op isR).1

/-- Delays slept by `withRetry`, in order. -/
def retryDelays (opts : RetryOptions) (op : Nat → Except ε α) (isR : ε → Bool) : List ℚ :=
  (withRetry opts op isR).2.1

/-- Final outcome of `withRetry`. -/
def retryResult (opts : RetryOptions) (op : Nat → Except ε α) (isR : ε → Bool) :
    Except ε α :=
  (withRetry opts op isR).2.2

/-! ### Claims C1 and C2 -/

/-- An `AxiosError` carrying HTTP status 503, for scenario instances. -/
def e503 : AxiosErrorInfo := { isAxiosError := true, status := some 503, code := none }

/-- An `AxiosError` carrying HTTP status 401 (not retryable). -/
def e401 : AxiosErrorInfo := { isAxiosError := true, status := some 401, code := none }

/-- Operation that fails once with a 503 and then succeeds with 42. -/
def c1op : Nat → Except AxiosErrorInfo Nat :=
  fun n => if n = 1 then Except.error e503 else Except.ok 42

/-- Operation that always fails with a 401. -/
def c2op : Nat → Except AxiosErrorInfo Nat := fun _ => Except.error e401

/-- The default retryability predicate, stated the way the specification words
it: a failure is retryable iff it is an HTTP-stack failure carrying a
recognized transient status, or one with no response at all carrying a
recognized transient transport code. -/
def specRetryablePred (e : AxiosErrorInfo) : Prop :=
  e.isAxiosError = true ∧
    ((∃ s, e.status = some s ∧ s ∈ ([408, 429, 500, 502, 503, 504] : List Nat)) ∨
      (e.status = none ∧ ∃ c, e.code = some c ∧
        c ∈ (["ETIMEDOUT", "ECONNRESET", "ECONNREFUSED"] : List String)))

/-! ## Prompt post-processing: `extractCode` (src/unnamed/part_001, lines 69-87)

The source computes `correctedCode = response.data.response.trim()`, matches it
against the regex `/```(?:\w*\n)?([\s\S]*?)```$/` and, when the match exists
and the captured group is a non-empty (hence truthy) string, replaces
`correctedCode` by the trimmed capture.

The regex semantics are embedded directly.  Because the closing ``` must be
followed by the end anchor, a match forces the closing fence to be the final
three characters; the engine's leftmost-match rule makes the opening fence the
first occurrence of ``` (any such occurrence with at least three characters of
room before the closing fence succeeds, since the language-tag group is
optional); the greedy optional group `(?:\w*\n)?` consumes the maximal
word-character run plus a newline when that newline is present and leaves room
for the closing fence, and otherwise is dropped by backtracking. -/

/-- JS `String.prototype.trim`, on the whitespace characters relevant here. -/
def jsTrim (s : String) : String :=
  ⟨((s.data.dropWhile Char.isWhitespace).reverse.dropWhile Char.isWhitespace).reverse⟩

/-- The regex class `\w`, i.e. `[A-Za-z0-9_]`. -/
def isWordChar (c : Char) : Bool :=
  c.isAlpha || c.isDigit || c = '_'

/-- Is there a triple-backtick fence starting at index `i`? -/
def fenceAt (cs : List Char) (i : Nat) : Bool :=
  List.isPrefixOf ['`', '`', '`'] (cs.drop i)

/-- Index of the first triple-backtick fence, if any. -/
def firstFenceIdx (cs : List Char) : Option Nat :=
  (List.range cs.length).find? (fun i => fenceAt cs i)

/-- Length of the maximal `\w`-run starting at index `p`. -/
def wordRunLen (cs : List Char) (p : Nat) : Nat :=
  ((cs.drop p).takeWhile isWordChar).length

/-- The capture group of `/```(?:\w*\n)?([\s\S]*?)```$/` on `cs`, when the
regex matches (`cs` is the already-trimmed text). -/
def fenceCapture (cs : List Char) : Option (List Char) :=
  match firstFenceIdx cs with
  | none => none
  | some i =>
    if i + 6 ≤ cs.length ∧ fenceAt cs (cs.length - 3) then
      let run := wordRunLen cs (i + 3)
      let contentStart :=
        if cs.get? (i + 3 + run) = some '\n' ∧ i + 3 + run + 1 ≤ cs.length - 3 then
          i + 3 + run + 1
        else
          i + 3
      some ((cs.drop contentStart).take (cs.length - 3 - contentStart))
    else
      none

/-- Function `extractCode` of the spec, as implemented by lines 69-87 of the source:
trim; if the end-anchored fence regex matches with a truthy (non-empty)
capture, return the trimmed capture, else the trimmed input. -/
def extractCode (raw : String) : String :=
  let t := jsTrim raw
  match fenceCapture t.data with
  | some content => if content ≠ [] then jsTrim ⟨content⟩ else t
  | none => t

/-- Holds when `extractCode x` yields a result on which the fence regex finds no further
non-empty capture (so a second application is the identity, see C5). -/
def fenceFree (s : String) : Prop :=
  ∀ c, fenceCapture s.data = some c → c = []

instance (s : String) : Decidable (fenceFree s) := by
  unfold fenceFree
  cases fenceCapture s.data with
  | none => exact Decidable.isTrue (by intro c h; cases h)
  | some c =>
    by_cases h : c = []
    · exact Decidable.isTrue (by intro c' h'; cases h'; exact h)
    · exact Decidable.isFalse (by intro hall; exact h (hall c rfl))

/-! ## Model Client: `getOllamaResponse` (src/unnamed/part_000, lines 117-258)

The chat provider reads the configuration afresh at the start of each call,
resolves the base URL (falling back to the default when the host URL
constructor rejects it), runs the model-availability check through the
provider's `RetryManager` inside a `try` whose `catch` only logs a warning,
runs the model-reconciliation flow when the configured model is absent from
the catalog, and finally issues the generation request through the same
`RetryManager` inside a `try` whose `catch` converts any exception into an
in-band error-message string.

Host primitives (the configuration store, `showErrorMessage`,
`showQuickPick`, the HTTP transport) are oracles; asynchronous HTTP outcomes
are indexed per logical call and per retry attempt. -/

/-- The host configuration store `workspace.getConfiguration('ollamaCodeFixer')`,
restricted to the keys that influence the control flow modelled here.  Other
keys (sampling parameters, timeouts, log level) only populate the request
payload or logging and are not modelled. -/
structure ConfigStore where
  ollamaApiUrl : String
  modelName : String
  maxRetries : Nat
  retryDelay : ℚ
  backoffMultiplier : ℚ
deriving DecidableEq, Repr

/-- Constructor of `RetryManager` (retry.ts lines 15-23): reads the retry
options from the configuration store, at construction time. -/
def readRetryOptions (s : ConfigStore) : RetryOptions :=
  { maxRetries := s.maxRetries
    retryDelay := s.retryDelay
    backoffMultiplier := s.backoffMultiplier }

/-- The chat provider: its constructor (chatProvider lines 13-15) creates the
provider's single `RetryManager`, whose options are fixed from the store that
is current at construction. -/
structure ChatProvider where
  retryOptions : RetryOptions
deriving DecidableEq, Repr

/-- Models `new OllamaCodeFixerChatProvider(...)` together with the `RetryManager`
construction it performs. -/
def mkChatProvider (s : ConfigStore) : ChatProvider :=
  { retryOptions := readRetryOptions s }

/-- Characters allowed in a URL scheme after the leading letter. -/
def isSchemeChar (c : Char) : Bool :=
  c.isAlpha || c.isDigit || c = '+' || c = '-' || c = '.'

/-- Model of the host `new URL(s)` constructor succeeding: an absolute URL
must begin with a scheme — an ASCII letter, then scheme characters, then a
colon (`"not a url"` has no scheme and is rejected; `"http://host"` and
`"ftp://host"` are accepted). -/
def urlParses (s : String) : Bool :=
  match s.data with
  | [] => false
  | c :: rest =>
    c.isAlpha &&
      (match rest.dropWhile isSchemeChar with
        | ':' :: _ => true
        | _ => false)

/-- Models `baseApiUrl.replace(/\/+$/, '')`: strip all trailing slashes. -/
def stripTrailingSlashes (s : String) : String :=
  ⟨(s.data.reverse.dropWhile (· = '/')).reverse⟩

/-- The fallback base URL of line 127 (also the configuration default). -/
def defaultBaseUrl : String := "http://localhost:11434"

/-- Lines 121-128: `new URL(baseApiUrl)` then trailing-slash stripping; a
parse failure is caught, logged, and replaced by the default base URL. -/
def resolveBaseApiUrl (s : String) : String :=
  if urlParses s then stripTrailingSlashes s else defaultBaseUrl

/-- Models `String.prototype.startsWith`, used by the protocol guard of line 209. -/
def strStartsWith (pre s : String) : Bool :=
  List.isPrefixOf pre.data s.data

/-- One dispatched HTTP request. -/
inductive NetCall
  | catalogGet (url : String)
  | generationPost (url : String)
deriving DecidableEq, Repr

/-- Response body of the chat endpoint: `message.content` when present
(lines 224-225), plus the raw serialized body used as the fallback
(line 226). -/
structure GenChatResponse where
  messageContent : Option String
  raw : String
deriving DecidableEq, Repr

/-- The two non-dismiss buttons of the `showErrorMessage` prompt
(lines 147-151); dismissing the prompt is `Option.none` at the use site. -/
inductive UserChoice
  | installModel
  | changeModel
deriving DecidableEq, Repr

/-- A thrown JS exception: a rejected axios promise, the explicit
`new Error('Invalid URL protocol: …')` of line 210, or the `TypeError` from
calling `.trim()` on an absent `response` field (part_001 line 69). -/
inductive JsError
  | axios (e : AxiosErrorInfo)
  | invalidProtocol (url : String)
  | typeError
deriving DecidableEq, Repr

/-- The values `getOllamaResponse` can resolve with, one constructor per
`return` site (the source returns strings; their exact localized contents do
not matter to any claim, only which site produced them).  `noFuel` is the
cutoff of the unbounded model-switch recursion of line 166 and corresponds to
no source behaviour other than nontermination. -/
inductive ChatResult
  | content (s : String)
  | rawBody (s : String)
  | installStarted (m : String)
  | notInstalled (m : String)
  | ollamaError (e : JsError)
  | noFuel
deriving DecidableEq, Repr

/-- Environment oracles: per-call, per-attempt outcomes of the two HTTP
endpoints (first index: which logical call, second: which retry attempt,
1-based), the user's choice at each missing-model prompt, and the model
picked at each quick-pick. -/
structure ChatEnv where
  catalog : Nat → Nat → Except AxiosErrorInfo (List String)
  generation : Nat → Nat → Except AxiosErrorInfo GenChatResponse
  choice : Nat → Option UserChoice
  pick : Nat → Option String

/-- World threaded through a run: the configuration store, the network calls
dispatched so far (in order), cursors into the oracles, and the number of
warnings logged. -/
structure ChatWorld where
  store : ConfigStore
  calls : List NetCall
  catalogIdx : Nat
  genIdx : Nat
  choiceIdx : Nat
  pickIdx : Nat
  warnings : Nat
deriving DecidableEq, Repr

/-- Fresh world over a store: nothing dispatched yet. -/
def initialWorld (s : ConfigStore) : ChatWorld :=
  { store := s, calls := [], catalogIdx := 0, genIdx := 0, choiceIdx := 0,
    pickIdx := 0, warnings := 0 }

/-- The `/api/tags` URL for the current store (line 139). -/
def tagsUrl (w : ChatWorld) : String :=
  resolveBaseApiUrl w.store.ollamaApiUrl ++ "/api/tags"

/-- The `/api/chat` URL for the current store (lines 131-132). -/
def chatUrl (w : ChatWorld) : String :=
  resolveBaseApiUrl w.store.ollamaApiUrl ++ "/api/chat"

/-- Record the `n` GET attempts of one catalog check and advance its cursor. -/
def afterCatalog (w : ChatWorld) (url : String) (n : Nat) : ChatWorld :=
  { w with calls := w.calls ++ List.replicate n (NetCall.catalogGet url)
           catalogIdx := w.catalogIdx + 1 }

/-- Record the `n` POST attempts of one generation call and advance its
cursor. -/
def afterGeneration (w : ChatWorld) (url : String) (n : Nat) : ChatWorld :=
  { w with calls := w.calls ++ List.replicate n (NetCall.generationPost url)
           genIdx := w.genIdx + 1 }

/-- Consume one missing-model prompt. -/
def bumpChoice (w : ChatWorld) : ChatWorld := { w with choiceIdx := w.choiceIdx + 1 }

/-- Consume one quick-pick. -/
def bumpPick (w : ChatWorld) : ChatWorld := { w with pickIdx := w.pickIdx + 1 }

/-- Log one warning. -/
def addWarning (w : ChatWorld) : ChatWorld := { w with warnings := w.warnings + 1 }

/-- Models `config.update('modelName', newModel, true)` of line 165. -/
def setModel (w : ChatWorld) (m : String) : ChatWorld :=
  { w with store := { w.store with modelName := m } }

/-- Lines 208-258, the `try` around the generation request.  The first
component is `Except.error` exactly when the block throws: the invalid
protocol guard of lines 209-211, or the axios rejection escaping
`withRetry`. -/
def generationTryBody (prov : ChatProvider) (env : ChatEnv) (fullApiUrl : String)
    (w : ChatWorld) : Except JsError ChatResult × ChatWorld :=
  if strStartsWith "http://" fullApiUrl || strStartsWith "https://" fullApiUrl then
    match withRetry prov.retryOptions (env.generation w.genIdx) defaultIsRetryable with
    | (n, _, Except.ok resp) =>
      (match resp.messageContent with
        | some c => Except.ok (ChatResult.content (jsTrim c))
        | none => Except.ok (ChatResult.rawBody resp.raw),
       afterGeneration w fullApiUrl n)
    | (n, _, Except.error e) =>
      (Except.error (JsError.axios e), afterGeneration w fullApiUrl n)
  else
    (Except.error (JsError.invalidProtocol fullApiUrl), w)

/-- Lines 208-258 with the `catch` of line 228 applied: every exception of the
generation stage becomes the in-band error-message result. -/
def genFinish (prov : ChatProvider) (env : ChatEnv) (fullApiUrl : String)
    (w : ChatWorld) : Except JsError ChatResult × ChatWorld :=
  match generationTryBody prov env fullApiUrl w with
  | (Except.ok r, w') => (Except.ok r, w')
  | (Except.error e, w') => (Except.ok (ChatResult.ollamaError e), w')

/-- Method `getOllamaResponse` (lines 117-258).  The first component is
`Except.error` only if an exception escapes the whole function; the theorems
show it never does.  `fuel` bounds the model-switch recursion of line 166;
the source recursion is re-entered only after the user picks a new model.
The availability check (lines 136-177) sits in a `try` whose `catch`
(lines 172-177) logs a warning and falls through to the generation request —
this also catches a hypothetical rejection of the recursive call of
line 166, which the model makes explicit in the last branch. -/
def getOllamaResponseE (prov : ChatProvider) (env : ChatEnv) :
    Nat → ChatWorld → Except JsError ChatResult × ChatWorld
  | 0, w => (Except.ok ChatResult.noFuel, w)
  | fuel + 1, w =>
    match withRetry prov.retryOptions (env.catalog w.catalogIdx) defaultIsRetryable with
    | (n, _, Except.error _) =>
      genFinish prov env (chatUrl w) (addWarning (afterCatalog w (tagsUrl w) n))
    | (n, _, Except.ok models) =>
      if models.contains w.store.modelName then
        genFinish prov env (chatUrl w) (afterCatalog w (tagsUrl w) n)
      else
        match env.choice w.choiceIdx with
        | some UserChoice.installModel =>
          (Except.ok (ChatResult.installStarted w.store.modelName),
           bumpChoice (afterCatalog w (tagsUrl w) n))
        | some UserChoice.changeModel =>
          match env.pick w.pickIdx with
          | some newModel =>
            (match getOllamaResponseE prov env fuel
                (setModel (bumpPick (bumpChoice (afterCatalog w (tagsUrl w) n))) newModel) with
              | (Except.ok r, w5) => (Except.ok r, w5)
              | (Except.error _, w5) => genFinish prov env (chatUrl w) (addWarning w5))
          | none =>
            (Except.ok (ChatResult.notInstalled w.store.modelName),
             bumpPick (bumpChoice (afterCatalog w (tagsUrl w) n)))
        | none =>
          (Except.ok (ChatResult.notInstalled w.store.modelName),
           bumpChoice (afterCatalog w (tagsUrl w) n))

/-! ## `getCorrectionFromOllama` and the fix command (src/unnamed/part_001) -/

/-- The `/api/generate` response as consumed by lines 59-69: only the
`response` field matters; `none` embeds a body without it (in which case
line 69's `.trim()` throws a `TypeError` inside the `try`). -/
structure GenerateResponse where
  response : Option String
deriving DecidableEq, Repr

/-- Lines 58-89, the `try` of `getCorrectionFromOllama`: await the POST, trim
the `response` field and extract the final fenced code block.  The first
`Except` layer is the thrown-exception channel. -/
def getCorrectionTryBody (post : Except AxiosErrorInfo GenerateResponse) :
    Except JsError String :=
  match post with
  | Except.error e => Except.error (JsError.axios e)
  | Except.ok resp =>
    match resp.response with
    | none => Except.error JsError.typeError
    | some s => Except.ok (extractCode s)

/-- Function `getCorrectionFromOllama` (lines 32-108): the `catch` of lines 91-107
converts every exception into a logged/notified error and resolves with
`null`. -/
def getCorrectionFromOllama (post : Except AxiosErrorInfo GenerateResponse) :
    Except JsError (Option String) :=
  match getCorrectionTryBody post with
  | Except.ok s => Except.ok (some s)
  | Except.error _ => Except.ok none

/-- An editor selection, as offsets into the document text.  `isEmpty` is
vscode's anchor-equals-active test. -/
structure Selection where
  start : Nat
  stop : Nat
deriving DecidableEq, Repr

/-- Models `selection.isEmpty`. -/
def Selection.isEmpty (s : Selection) : Bool := s.start == s.stop

/-- Models `editor.document.getText(selection)`. -/
def getTextIn (doc : String) (sel : Selection) : String :=
  ⟨(doc.data.drop sel.start).take (sel.stop - sel.start)⟩

/-- Models `editBuilder.replace(selection, text)`: one atomic full replacement of the
range. -/
def replaceIn (doc : String) (sel : Selection) (text : String) : String :=
  ⟨doc.data.take sel.start ++ text.data ++ doc.data.drop sel.stop⟩

/-- A text editor: the identity of its document (`===` on
`editor.document` compares references, embedded as `docId`), the document
text, and the current selection. -/
structure Editor where
  docId : Nat
  doc : String
  sel : Selection
deriving DecidableEq, Repr

/-- The single edit the fix command may issue: replace `range` of the document
identified by `targetDocId` with `newText`. -/
structure EditAction where
  targetDocId : Nat
  range : Selection
  newText : String
deriving DecidableEq, Repr

/-- Applying an edit action to an editor: a no-op on any other document. -/
def applyEdit (ed : Editor) (act : EditAction) : Editor :=
  if ed.docId = act.targetDocId then
    { ed with doc := replaceIn ed.doc act.range act.newText }
  else
    ed

/-- Applying an optional edit action; `none` leaves the editor untouched. -/
def applyEditOpt (ed : Editor) : Option EditAction → Editor
  | none => ed
  | some act => applyEdit ed act

/-- The user-visible outcome of the `fixSelectedCode` command, one constructor
per terminal message/return of lines 207-284. -/
inductive FixOutcome
  | noEditor
  | noSelection
  | cancelled
  | correctionFailed
  | noChangesSuggested
  | applied
  | applyFailed
  | selectionChanged
deriving DecidableEq, Repr

/-- Oracles for one run of the fix command: the POST outcome consumed by
`getCorrectionFromOllama`, the cancellation token at its two check points
(lines 237 and 241), the active editor observed after the await (line 255),
and whether the host reports the edit as applied (line 263). -/
structure FixCmdEnv where
  post : Except AxiosErrorInfo GenerateResponse
  cancelledBeforeRequest : Bool
  cancelledAfterRequest : Bool
  editorAfter : Option Editor
  editApplies : Bool

/-- The `ollama-code-fixer.fixSelectedCode` command (lines 207-284): capture
the selection, obtain a correction, and apply it only when it is a full
successful result, differs from the selected text, and the active editor,
document and selection are unchanged.  Returns the outcome together with the
edit action issued (if any); the first `Except` layer is the
thrown-exception channel, fed by `getCorrectionFromOllama`. -/
def fixSelectedCode (active : Option Editor) (env : FixCmdEnv) :
    Except JsError (FixOutcome × Option EditAction) :=
  match active with
  | none => Except.ok (FixOutcome.noEditor, none)
  | some ed =>
    if ed.sel.isEmpty then
      Except.ok (FixOutcome.noSelection, none)
    else if env.cancelledBeforeRequest then
      Except.ok (FixOutcome.cancelled, none)
    else
      match getCorrectionFromOllama env.post with
      | Except.error e => Except.error e
      | Except.ok corr =>
        if env.cancelledAfterRequest then
          Except.ok (FixOutcome.cancelled, none)
        else
          match corr with
          | none => Except.ok (FixOutcome.correctionFailed, none)
          | some correctedCode =>
            if correctedCode = getTextIn ed.doc ed.sel then
              Except.ok (FixOutcome.noChangesSuggested, none)
            else
              match env.editorAfter with
              | some cur =>
                if cur.docId = ed.docId ∧ cur.sel = ed.sel then
                  Except.ok
                    ((if env.editApplies then FixOutcome.applied
                      else FixOutcome.applyFailed),
                     some { targetDocId := ed.docId, range := ed.sel,
                            newText := correctedCode })
                else
                  Except.ok (FixOutcome.selectionChanged, none)
              | none => Except.ok (FixOutcome.selectionChanged, none)

/-! ### Claims C3 and C4 -/

/-- Store with the malformed base URL of the spec's scenario. -/
def c3store : ConfigStore :=
  { ollamaApiUrl := "not a url", modelName := "m", maxRetries := 0,
    retryDelay := 1, backoffMultiplier := 2 }

/-- Store with a well-formed non-network base URL. -/
def c3ftpStore : ConfigStore :=
  { ollamaApiUrl := "ftp://host", modelName := "m", maxRetries := 0,
    retryDelay := 1, backoffMultiplier := 2 }

/-- Benign environment: the catalog lists the configured model and the
generation call succeeds, always on the first attempt. -/
def okEnv : ChatEnv :=
  { catalog := fun _ _ => Except.ok ["m"]
    generation := fun _ _ => Except.ok { messageContent := some "hi", raw := "raw" }
    choice := fun _ => none
    pick := fun _ => none }

/-- Store at provider-construction time: one retry allowed. -/
def c4storeOld : ConfigStore :=
  { ollamaApiUrl := "http://h", modelName := "m", maxRetries := 1,
    retryDelay := 1, backoffMultiplier := 2 }

/-- The same store after the user changes the retry configuration. -/
def c4storeNew : ConfigStore := { c4storeOld with maxRetries := 0 }

/-- A transport timeout (retryable under the default predicate). -/
def eTimedOut : AxiosErrorInfo :=
  { isAxiosError := true, status := none, code := some "ETIMEDOUT" }

/-- Environment whose catalog endpoint times out on every first attempt and
succeeds on the second. -/
def flakyEnv : ChatEnv :=
  { catalog := fun _ attempt =>
      if attempt = 1 then Except.error eTimedOut else Except.ok ["m"]
    generation := fun _ _ => Except.ok { messageContent := some "hi", raw := "raw" }
    choice := fun _ => none
    pick := fun _ => none }

/-- The store with its three retry keys overwritten. -/
def setRetryCfg (s : ConfigStore) (a : Nat) (b c : ℚ) : ConfigStore :=
  { s with maxRetries := a, retryDelay := b, backoffMultiplier := c }

/-- Store used by the C6 witness: default retry budget exhausted at once. -/
def c6store : ConfigStore :=
  { ollamaApiUrl := "http://h", modelName := "m", maxRetries := 0,
    retryDelay := 1, backoffMultiplier := 2 }

/-- Environment whose catalog endpoint always times out but whose generation
endpoint succeeds. -/
def c6env : ChatEnv :=
  { catalog := fun _ _ => Except.error eTimedOut
    generation := fun _ _ => Except.ok { messageContent := some "hi", raw := "raw" }
    choice := fun _ => none
    pick := fun _ => none }

/-- Store of the C7 scenario: configured model `"foo"`. -/
def c7store : ConfigStore :=
  { ollamaApiUrl := "http://h", modelName := "foo", maxRetries := 0,
    retryDelay := 1, backoffMultiplier := 2 }

/-- Environment of the C7 scenario: catalog `[{name:"bar"}]`, user chooses to
change model and picks `"bar"`. -/
def c7env : ChatEnv :=
  { catalog := fun _ _ => Except.ok ["bar"]
    generation := fun _ _ => Except.ok { messageContent := some "hi", raw := "raw" }
    choice := fun _ => some UserChoice.changeModel
    pick := fun _ => some "bar" }

/-- The editor of the C9/C10 scenarios: document `"abc"`, all selected. -/
def ed0 : Editor := { docId := 0, doc := "abc", sel := { start := 0, stop := 3 } }

/-- Command environment in which the model returns `"xyz"` and nothing
changed during the await. -/
def fixEnvChanged : FixCmdEnv :=
  { post := Except.ok { response := some "xyz" }
    cancelledBeforeRequest := false
    cancelledAfterRequest := false
    editorAfter := some ed0
    editApplies := true }

/-- Command environment in which the model returns the selected text
verbatim. -/
def fixEnvSame : FixCmdEnv :=
  { post := Except.ok { response := some "abc" }
    cancelledBeforeRequest := false
    cancelledAfterRequest := false
    editorAfter := some ed0
    editApplies := true }


/-! ### General lemmas about the retry loop -/

lemma withRetryGo_fst_ge (op : Nat → Except ε α) (isR : ε → Bool) (mr : Nat)
    (mult : ℚ) :
    ∀ fuel a d ds, a ≤ (withRetryGo op isR mr mult fuel a d ds).1 := by
  intro fuel
  induction fuel with
  | zero =>
    intro a d ds
    simp [withRetryGo]
  | succ f ih =>
    intro a d ds
    cases hop : op a with
    | ok v => simp [withRetryGo, hop]
    | error e =>
      by_cases hg : (a ≤ mr && isR e) = true
      · have := ih (a + 1) (d * mult) (d :: ds)
        simp only [withRetryGo, hop, hg, if_true]
        omega
      · simp [withRetryGo, hop, hg]

lemma withRetryGo_fst_le (op : Nat → Except ε α) (isR : ε → Bool) (mr : Nat)
    (mult : ℚ) :
    ∀ fuel a d ds, (withRetryGo op isR mr mult fuel a d ds).1 ≤ a + fuel := by
  intro fuel
  induction fuel with
  | zero =>
    intro a d ds
    simp [withRetryGo]
  | succ f ih =>
    intro a d ds
    cases hop : op a with
    | ok v => simp [withRetryGo, hop]
    | error e =>
      by_cases hg : (a ≤ mr && isR e) = true
      · have := ih (a + 1) (d * mult) (d :: ds)
        simp only [withRetryGo, hop, hg, if_true]
        omega
      · simp only [withRetryGo, hop, hg, Bool.false_eq_true, if_false]
        omega

lemma withRetryGo_len (op : Nat → Except ε α) (isR : ε → Bool) (mr : Nat)
    (mult : ℚ) :
    ∀ fuel a d ds,
      (withRetryGo op isR mr mult fuel a d ds).2.1.length + a =
        (withRetryGo op isR mr mult fuel a d ds).1 + ds.length := by
  intro fuel
  induction fuel with
  | zero =>
    intro a d ds
    simp [withRetryGo]
    omega
  | succ f ih =>
    intro a d ds
    cases hop : op a with
    | ok v =>
      simp [withRetryGo, hop]
      omega
    | error e =>
      by_cases hg : (a ≤ mr && isR e) = true
      · have := ih (a + 1) (d * mult) (d :: ds)
        simp only [withRetryGo, hop, hg, if_true]
        simp only [List.length_cons] at this
        omega
      · simp [withRetryGo, hop, hg]
        omega

/-- The error surfaced by the retry loop is the failure observed at the final
invocation of the operation (the `lastError` of the source). -/
lemma withRetryGo_last_error (op : Nat → Except ε α) (isR : ε → Bool) (mr : Nat)
    (mult : ℚ) :
    ∀ fuel a d ds (e : ε),
      (withRetryGo op isR mr mult fuel a d ds).2.2 = Except.error e →
        op (withRetryGo op isR mr mult fuel a d ds).1 = Except.error e := by
  intro fuel
  induction fuel with
  | zero =>
    intro a d ds e h
    simp only [withRetryGo] at h ⊢
    exact h
  | succ f ih =>
    intro a d ds e h
    cases hop : op a with
    | ok v => simp [withRetryGo, hop] at h
    | error e' =>
      by_cases hg : (a ≤ mr && isR e') = true
      · simp only [withRetryGo, hop, hg, if_true] at h ⊢
        exact ih (a + 1) (d * mult) (d :: ds) e h
      · simp only [withRetryGo, hop, hg, Bool.false_eq_true, if_false] at h ⊢
        simp [hop, h]

/-- A first-attempt success short-circuits the whole loop. -/
lemma withRetry_first_ok (opts : RetryOptions) (op : Nat → Except ε α)
    (isR : ε → Bool) (v : α) (h : op 1 = Except.ok v) :
    withRetry opts op isR = (1, ([] : List ℚ), Except.ok v) := by
  unfold withRetry
  cases hmr : opts.maxRetries with
  | zero => simp [withRetryGo, h]
  | succ m => simp [withRetryGo, h]

/-- The delay schedule is geometric: if the accumulated (reversed) delays are
the first `n` terms of `d0 * mult ^ ·` and the pending delay is term `n`, the
final delay list consists of consecutive terms of the same sequence. -/
lemma withRetryGo_delays (op : Nat → Except ε α) (isR : ε → Bool) (mr : Nat)
    (mult d0 : ℚ) :
    ∀ fuel a d ds n,
      ds.reverse = (List.range n).map (fun j => d0 * mult ^ j) →
      d = d0 * mult ^ n →
      (withRetryGo op isR mr mult fuel a d ds).2.1 =
        (List.range (n + ((withRetryGo op isR mr mult fuel a d ds).1 - a))).map
          (fun j => d0 * mult ^ j) := by
  intro fuel
  induction fuel with
  | zero =>
    intro a d ds n hds hd
    simpa [withRetryGo] using hds
  | succ f ih =>
    intro a d ds n hds hd
    cases hop : op a with
    | ok v => simpa [withRetryGo, hop] using hds
    | error e =>
      by_cases hg : (a ≤ mr && isR e) = true
      · simp only [withRetryGo, hop, hg, if_true]
        have hrev : (d :: ds).reverse = (List.range (n + 1)).map
            (fun j => d0 * mult ^ j) := by
          rw [List.reverse_cons, hds, List.range_succ, List.map_append, hd]
          simp
        have hdel : d * mult = d0 * mult ^ (n + 1) := by
          rw [hd, pow_succ, mul_assoc]
        have := ih (a + 1) (d * mult) (d :: ds) (n + 1) hrev hdel
        rw [this]
        have hge := withRetryGo_fst_ge op isR mr mult f (a + 1) (d * mult) (d :: ds)
        congr 2
        omega
      · simp only [withRetryGo, hop, hg, Bool.false_eq_true, if_false]
        simpa using hds

/-- Given `k` consecutive failures, all retryable, followed by a success: if the
budget allows reaching attempt `a + k`, the loop stops there with the success
value.  `E` gives the failure observed at each failing attempt. -/
lemma withRetryGo_succ_after (op : Nat → Except ε α) (isR : ε → Bool) (mr : Nat)
    (mult : ℚ) (E : Nat → ε) (v : α) :
    ∀ k fuel a d ds,
      (∀ j, j < k → op (a + j) = Except.error (E (a + j)) ∧ isR (E (a + j)) = true) →
      op (a + k) = Except.ok v →
      a + fuel = mr + 1 →
      k ≤ fuel →
      (withRetryGo op isR mr mult fuel a d ds).1 = a + k ∧
        (withRetryGo op isR mr mult fuel a d ds).2.2 = Except.ok v := by
  intro k
  induction k with
  | zero =>
    intro fuel a d ds _ hok _ _
    simp only [Nat.add_zero] at hok
    cases fuel with
    | zero => simp [withRetryGo, hok]
    | succ f => simp [withRetryGo, hok]
  | succ k ih =>
    intro fuel a d ds hfail hok hinv hk
    cases fuel with
    | zero => omega
    | succ f =>
      have h0 := hfail 0 (Nat.succ_pos k)
      simp only [Nat.add_zero] at h0
      have ha : a ≤ mr := by omega
      have hg : (a ≤ mr && isR (E a)) = true := by
        simp [ha, h0.2]
      simp only [withRetryGo, h0.1, hg, if_true]
      have hfail' : ∀ j, j < k →
          op (a + 1 + j) = Except.error (E (a + 1 + j)) ∧
            isR (E (a + 1 + j)) = true := by
        intro j hj
        have := hfail (j + 1) (by omega)
        constructor
        · rw [show a + 1 + j = a + (j + 1) by omega]; exact this.1
        · rw [show a + 1 + j = a + (j + 1) by omega]; exact this.2
      have hok' : op (a + 1 + k) = Except.ok v := by
        rw [show a + 1 + k = a + (k + 1) by omega]; exact hok
      have := ih f (a + 1) (d * mult) (d :: ds) hfail' hok' (by omega) (by omega)
      constructor
      · rw [this.1]; omega
      · exact this.2

/-- When every attempt up to the budget fails retryably, the loop performs all
`fuel + 1` remaining attempts and surfaces the last failure. -/
lemma withRetryGo_exhaust (op : Nat → Except ε α) (isR : ε → Bool) (mr : Nat)
    (mult : ℚ) (E : Nat → ε) :
    ∀ fuel a d ds,
      (∀ j, j ≤ fuel → op (a + j) = Except.error (E (a + j)) ∧
        isR (E (a + j)) = true) →
      a + fuel = mr + 1 →
      (withRetryGo op isR mr mult fuel a d ds).1 = a + fuel ∧
        (withRetryGo op isR mr mult fuel a d ds).2.2 =
          Except.error (E (a + fuel)) := by
  intro fuel
  induction fuel with
  | zero =>
    intro a d ds hfail _
    have h0 := (hfail 0 (Nat.le_refl 0)).1
    simp only [Nat.add_zero] at h0 ⊢
    simp [withRetryGo, h0]
  | succ f ih =>
    intro a d ds hfail hinv
    have h0 := hfail 0 (Nat.zero_le _)
    simp only [Nat.add_zero] at h0
    have ha : a ≤ mr := by omega
    have hg : (a ≤ mr && isR (E a)) = true := by simp [ha, h0.2]
    simp only [withRetryGo, h0.1, hg, if_true]
    have hfail' : ∀ j, j ≤ f →
        op (a + 1 + j) = Except.error (E (a + 1 + j)) ∧
          isR (E (a + 1 + j)) = true := by
      intro j hj
      have := hfail (j + 1) (by omega)
      rw [show a + 1 + j = a + (j + 1) by omega]
      exact this
    have := ih (a + 1) (d * mult) (d :: ds) hfail' (by omega)
    constructor
    · rw [this.1]; omega
    · rw [show a + (f + 1) = a + 1 + f by omega]
      exact this.2

/-- C1, counterexample: the claim says an operation that fails with a
retryable classification `k` consecutive times before succeeding is invoked
exactly `min(k, maxRetries+1)` times.  With `maxRetries = 3` and an operation
that fails retryably once (`k = 1`, a 503) and then succeeds, `withRetry`
invokes the operation 2 times, but `min(k, maxRetries+1) = 1`. -/
theorem claim_c1_counterexample :
    (∀ j, j < 1 → c1op (j + 1) = Except.error e503 ∧ defaultIsRetryable e503 = true) ∧
    c1op (1 + 1) = Except.ok 42 ∧
    retryCalls ⟨3, 1000, 2⟩ c1op defaultIsRetryable = 2 ∧
    (2 : Nat) ≠ min 1 (3 + 1) := by
  decide

/-- C1 (amended): `withRetry` invokes the operation strictly sequentially at
most `maxRetries + 1` times; when the operation fails with a retryable
classification `k` consecutive times before succeeding, it is invoked exactly
`min(k+1, maxRetries+1)` times; if the success attempt fits the budget
(`k ≤ maxRetries`) the result is that attempt's value and no further attempts
are made, otherwise the last failure (the one at attempt `maxRetries + 1`) is
surfaced; and the delay slept before attempt `i+1` is
`initialDelay * backoffMultiplier ^ (i-1)` (0-based: the `j`-th recorded delay
is `initialDelay * backoffMultiplier ^ j`). -/
theorem claim_c1_retry_schedule (opts : RetryOptions)
    (op : Nat → Except AxiosErrorInfo Nat) (isR : AxiosErrorInfo → Bool) (k : Nat)
    (es : Nat → AxiosErrorInfo) (v : Nat)
    (hfail : ∀ j, j < k → op (j + 1) = Except.error (es j) ∧ isR (es j) = true)
    (hok : op (k + 1) = Except.ok v) :
    retryCalls opts op isR = min (k + 1) (opts.maxRetries + 1) ∧
    (k ≤ opts.maxRetries → retryResult opts op isR = Except.ok v) ∧
    (opts.maxRetries < k →
      retryResult opts op isR = Except.error (es opts.maxRetries)) ∧
    retryDelays opts op isR = (List.range (retryCalls opts op isR - 1)).map
      (fun j => opts.retryDelay * opts.backoffMultiplier ^ j) ∧
    (∀ (op' : Nat → Except AxiosErrorInfo Nat) (isR' : AxiosErrorInfo → Bool),
      retryCalls opts op' isR' ≤ opts.maxRetries + 1) := by
  have hdelays : ∀ (op' : Nat → Except AxiosErrorInfo Nat)
      (isR' : AxiosErrorInfo → Bool),
      retryDelays opts op' isR' = (List.range (retryCalls opts op' isR' - 1)).map
        (fun j => opts.retryDelay * opts.backoffMultiplier ^ j) := by
    intro op' isR'
    have h := withRetryGo_delays op' isR' opts.maxRetries opts.backoffMultiplier
      opts.retryDelay opts.maxRetries 1 opts.retryDelay [] 0 (by simp) (by simp)
    simpa [retryDelays, retryCalls, withRetry] using h
  have hbound : ∀ (op' : Nat → Except AxiosErrorInfo Nat)
      (isR' : AxiosErrorInfo → Bool),
      retryCalls opts op' isR' ≤ opts.maxRetries + 1 := by
    intro op' isR'
    have h := withRetryGo_fst_le op' isR' opts.maxRetries opts.backoffMultiplier
      opts.maxRetries 1 opts.retryDelay []
    simpa [retryCalls, withRetry, Nat.add_comm] using h
  by_cases hk : k ≤ opts.maxRetries
  · have h := withRetryGo_succ_after op isR opts.maxRetries opts.backoffMultiplier
      (fun n => es (n - 1)) v k opts.maxRetries 1 opts.retryDelay []
      (by
        intro j hj
        simpa [Nat.add_comm, Nat.add_sub_cancel] using hfail j hj)
      (by simpa [Nat.add_comm] using hok)
      (by omega) hk
    refine ⟨?_, fun _ => ?_, fun hlt => absurd hk (by omega), hdelays op isR,
      hbound⟩
    · simp only [retryCalls, withRetry]
      rw [h.1]
      omega
    · simp only [retryResult, withRetry]
      exact h.2
  · have hlt : opts.maxRetries < k := by omega
    have h := withRetryGo_exhaust op isR opts.maxRetries opts.backoffMultiplier
      (fun n => es (n - 1)) opts.maxRetries 1 opts.retryDelay []
      (by
        intro j hj
        simpa [Nat.add_comm, Nat.add_sub_cancel] using hfail j (by omega))
      (by omega)
    refine ⟨?_, fun hle => absurd hle hk, fun _ => ?_, hdelays op isR, hbound⟩
    · simp only [retryCalls, withRetry]
      rw [h.1]
      omega
    · simp only [retryResult, withRetry]
      rw [h.2]
      congr 1
      simp [Nat.add_comm]

/-- Witness for C1 (amended) at the spec's own scenario shape:
`maxRetries = 3`, a single retryable 503 failure then success → 2 invocations
(`min(1+1, 3+1)`), the success value is returned, and the single delay slept
is the initial delay. -/
theorem claim_c1_retry_schedule_witness :
    retryCalls ⟨3, 1000, 2⟩ c1op defaultIsRetryable = min (1 + 1) (3 + 1) ∧
    retryResult ⟨3, 1000, 2⟩ c1op defaultIsRetryable = Except.ok 42 ∧
    retryDelays ⟨3, 1000, 2⟩ c1op defaultIsRetryable =
      (List.range (retryCalls ⟨3, 1000, 2⟩ c1op defaultIsRetryable - 1)).map
        (fun j => (1000 : ℚ) * 2 ^ j) := by
  have h := claim_c1_retry_schedule ⟨3, 1000, 2⟩ c1op defaultIsRetryable 1
    (fun _ => e503) 42 (by decide) (by decide)
  exact ⟨h.1, h.2.1 (by decide), h.2.2.2.1⟩

/-- C2: the default predicate retries exactly the failures the spec lists
(HTTP 408/429/500/502/503/504, or no response with a transient transport
code; everything else — including non-Axios errors — is fatal); with the
default predicate a non-retryable first failure means exactly one invocation;
and any terminal failure is surfaced immediately — the error returned is the
one observed at the final invocation, and no delay is slept after that final
attempt (`#delays = #calls - 1`). -/
theorem claim_c2_default_predicate :
    (∀ e : AxiosErrorInfo, defaultIsRetryable e = true ↔ specRetryablePred e) ∧
    (∀ (opts : RetryOptions) (op : Nat → Except AxiosErrorInfo Nat)
      (e : AxiosErrorInfo), op 1 = Except.error e → defaultIsRetryable e = false →
      retryCalls opts op defaultIsRetryable = 1 ∧
        retryResult opts op defaultIsRetryable = Except.error e) ∧
    (∀ (opts : RetryOptions) (op : Nat → Except AxiosErrorInfo Nat)
      (isR : AxiosErrorInfo → Bool) (e : AxiosErrorInfo),
      retryResult opts op isR = Except.error e →
      op (retryCalls opts op isR) = Except.error e ∧
        (retryDelays opts op isR).length + 1 = retryCalls opts op isR) := by
  refine ⟨?_, ?_, ?_⟩
  · intro e
    obtain ⟨ax, st, cd⟩ := e
    cases ax with
    | false => simp [defaultIsRetryable, specRetryablePred]
    | true =>
      cases st with
      | none =>
        cases cd with
        | none => simp [defaultIsRetryable, specRetryablePred]
        | some c => simp [defaultIsRetryable, specRetryablePred]
      | some s => simp [defaultIsRetryable, specRetryablePred]
  · intro opts op e hop hnr
    cases hmr : opts.maxRetries with
    | zero =>
      constructor
      · simp [retryCalls, withRetry, hmr, withRetryGo, hop]
      · simp [retryResult, withRetry, hmr, withRetryGo, hop]
    | succ m =>
      constructor
      · simp [retryCalls, withRetry, hmr, withRetryGo, hop, hnr]
      · simp [retryResult, withRetry, hmr, withRetryGo, hop, hnr]
  · intro opts op isR e herr
    constructor
    · exact withRetryGo_last_error op isR opts.maxRetries opts.backoffMultiplier
        opts.maxRetries 1 opts.retryDelay [] e herr
    · have h := withRetryGo_len op isR opts.maxRetries opts.backoffMultiplier
        opts.maxRetries 1 opts.retryDelay []
      simp only [List.length_nil, Nat.add_zero] at h
      simpa [retryDelays, retryCalls, withRetry] using h

/-- Witness for C2 at the spec's own scenario: a 401 failure on the first
attempt → the operation is invoked exactly once and the 401 failure surfaces
immediately. -/
theorem claim_c2_default_predicate_witness :
    retryCalls ⟨3, 1000, 2⟩ c2op defaultIsRetryable = 1 ∧
    retryResult ⟨3, 1000, 2⟩ c2op defaultIsRetryable = Except.error e401 ∧
    specRetryablePred e503 := by
  refine ⟨?_, ?_, ?_⟩
  · exact (claim_c2_default_predicate.2.1 ⟨3, 1000, 2⟩ c2op e401 rfl (by decide)).1
  · exact (claim_c2_default_predicate.2.1 ⟨3, 1000, 2⟩ c2op e401 rfl (by decide)).2
  · exact (claim_c2_default_predicate.1 e503).mp (by decide)

/-! ### Trimming lemmas -/

lemma dropWhile_dropWhile (p : Char → Bool) :
    ∀ l : List Char, (l.dropWhile p).dropWhile p = l.dropWhile p := by
  intro l
  induction l with
  | nil => simp
  | cons a l ih =>
    by_cases h : p a = true
    · simp [List.dropWhile_cons, h, ih]
    · simp [List.dropWhile_cons, h]

lemma dropWhile_of_prefix_stable (p : Char → Bool) :
    ∀ (r a : List Char), r <+: a → a.dropWhile p = a → r.dropWhile p = r := by
  intro r a hpre hstable
  cases r with
  | nil => simp
  | cons x xs =>
    obtain ⟨t, ht⟩ := hpre
    by_cases hx : p x = true
    · exfalso
      rw [← ht, List.cons_append, List.dropWhile_cons_of_pos hx] at hstable
      have hlen := congrArg List.length hstable
      have hle := (List.dropWhile_suffix (l := xs ++ t) p).length_le
      simp [List.length_append] at hlen hle
      omega
    · exact List.dropWhile_cons_of_neg hx

lemma jsTrim_idem (s : String) : jsTrim (jsTrim s) = jsTrim s := by
  unfold jsTrim
  set p := Char.isWhitespace
  set A := s.data.dropWhile p with hA
  set B := A.reverse.dropWhile p with hB
  -- data of the trimmed string
  have hdata : (String.mk B.reverse).data = B.reverse := rfl
  rw [hdata]
  -- left trim of `B.reverse` is the identity: it is a prefix of `A`, which is
  -- left-trim stable
  have hBsuffix : B <:+ A.reverse := by
    rw [hB]; exact List.dropWhile_suffix p
  have hpre : B.reverse <+: A := by
    have h := List.reverse_prefix.mpr hBsuffix
    rwa [List.reverse_reverse] at h
  have hAstable : A.dropWhile p = A := by rw [hA]; exact dropWhile_dropWhile p _
  have h1 : B.reverse.dropWhile p = B.reverse :=
    dropWhile_of_prefix_stable p B.reverse A hpre hAstable
  rw [h1]
  have h2 : B.reverse.reverse.dropWhile p = B := by
    rw [List.reverse_reverse, hB]
    exact dropWhile_dropWhile p _
  rw [h2]

lemma extractCode_trimmed (x : String) : jsTrim (extractCode x) = extractCode x := by
  unfold extractCode
  cases h : fenceCapture (jsTrim x).data with
  | none =>
    simp only [h]
    exact jsTrim_idem x
  | some c =>
    simp only [h]
    by_cases hc : c = []
    · simp [hc, jsTrim_idem]
    · simp [hc, jsTrim_idem]

/-- C5, counterexample: `extractCode` is not idempotent.  On
`x = "```a```b``````"`, the first application captures `a```b``` ` (content up
to the final fence), and the second application extracts `b` from it. -/
theorem claim_c5_counterexample :
    extractCode "```a```b``````" = "a```b```" ∧
    extractCode (extractCode "```a```b``````") = "b" ∧
    extractCode (extractCode "```a```b``````") ≠ extractCode "```a```b``````" := by
  refine ⟨by decide, ?_, ?_⟩ <;> decide

/-- C5 (amended): `extractCode` returns the trimmed capture of the
end-anchored fenced block when one is present with non-empty content, and the
trimmed input otherwise; it is idempotent on every input whose result contains
no further end-anchored fenced block with non-empty content (in particular
whenever no block was present, or the extracted content contains no fence); it
is not idempotent in general, because an extracted content that itself ends
with a fenced block is extracted again (see the counterexample). -/
theorem claim_c5_extract_idempotent (x : String) (h : fenceFree (extractCode x)) :
    extractCode (extractCode x) = extractCode x := by
  conv_lhs => rw [extractCode]
  rw [extractCode_trimmed x]
  cases hc : fenceCapture (extractCode x).data with
  | none => simp
  | some c =>
    have : c = [] := h c hc
    simp [this]

/-- Witness for C5 (amended): a language-tagged fenced answer extracts to its
body, and a second application leaves it unchanged. -/
theorem claim_c5_extract_idempotent_witness :
    extractCode "```py\ncode```" = "code" ∧
    extractCode (extractCode "```py\ncode```") = extractCode "```py\ncode```" := by
  refine ⟨by decide, claim_c5_extract_idempotent "```py\ncode```" (by decide)⟩

/-! ### Lemmas about the generation stage and the main loop -/

lemma withRetry_fst_pos (opts : RetryOptions) (op : Nat → Except ε α)
    (isR : ε → Bool) : 1 ≤ (withRetry opts op isR).1 := by
  unfold withRetry
  exact withRetryGo_fst_ge op isR opts.maxRetries opts.backoffMultiplier
    opts.maxRetries 1 opts.retryDelay []

lemma genFinish_ok (prov : ChatProvider) (env : ChatEnv) (u : String)
    (w : ChatWorld) : ∃ r w', genFinish prov env u w = (Except.ok r, w') := by
  unfold genFinish
  rcases h : generationTryBody prov env u w with ⟨fst, w'⟩
  cases fst with
  | ok r => exact ⟨r, w', rfl⟩
  | error e => exact ⟨ChatResult.ollamaError e, w', rfl⟩

lemma genFinish_store (prov : ChatProvider) (env : ChatEnv) (u : String)
    (w : ChatWorld) : (genFinish prov env u w).2.store = w.store := by
  unfold genFinish generationTryBody
  by_cases hg : (strStartsWith "http://" u || strStartsWith "https://" u) = true
  · simp only [hg, if_true]
    rcases h : withRetry prov.retryOptions (env.generation w.genIdx)
      defaultIsRetryable with ⟨n, ds, rc⟩
    cases rc with
    | ok resp =>
      obtain ⟨mc, raw⟩ := resp
      cases mc <;> simp [afterGeneration]
    | error e => simp [afterGeneration]
  · simp [hg]

lemma genFinish_calls (prov : ChatProvider) (env : ChatEnv) (u : String)
    (w : ChatWorld) :
    ∃ rest, (genFinish prov env u w).2.calls = w.calls ++ rest := by
  unfold genFinish generationTryBody
  by_cases hg : (strStartsWith "http://" u || strStartsWith "https://" u) = true
  · simp only [hg, if_true]
    rcases h : withRetry prov.retryOptions (env.generation w.genIdx)
      defaultIsRetryable with ⟨n, ds, rc⟩
    cases rc with
    | ok resp =>
      refine ⟨List.replicate n (NetCall.generationPost u), ?_⟩
      obtain ⟨mc, raw⟩ := resp
      cases mc <;> simp [afterGeneration]
    | error e => exact ⟨List.replicate n (NetCall.generationPost u), by simp [afterGeneration]⟩
  · exact ⟨[], by simp [hg]⟩

/-- When the protocol guard fails, the generation stage dispatches nothing and
resolves with the in-band invalid-protocol error. -/
lemma genFinish_bad_protocol (prov : ChatProvider) (env : ChatEnv) (u : String)
    (w : ChatWorld)
    (hg : (strStartsWith "http://" u || strStartsWith "https://" u) = false) :
    genFinish prov env u w =
      (Except.ok (ChatResult.ollamaError (JsError.invalidProtocol u)), w) := by
  unfold genFinish generationTryBody
  simp [hg]

/-- When the protocol guard passes, the generation stage dispatches at least
one POST and appends exactly its attempts to the call trace. -/
lemma genFinish_good_protocol_calls (prov : ChatProvider) (env : ChatEnv)
    (u : String) (w : ChatWorld)
    (hg : (strStartsWith "http://" u || strStartsWith "https://" u) = true) :
    ∃ k, 1 ≤ k ∧
      (genFinish prov env u w).2.calls =
        w.calls ++ List.replicate k (NetCall.generationPost u) := by
  unfold genFinish generationTryBody
  simp only [hg, if_true]
  rcases h : withRetry prov.retryOptions (env.generation w.genIdx)
    defaultIsRetryable with ⟨n, ds, rc⟩
  have hn : 1 ≤ n := by
    have := withRetry_fst_pos prov.retryOptions (env.generation w.genIdx)
      defaultIsRetryable
    rw [h] at this
    exact this
  cases rc with
  | ok resp =>
    refine ⟨n, hn, ?_⟩
    obtain ⟨mc, raw⟩ := resp
    cases mc <;> simp [afterGeneration]
  | error e => exact ⟨n, hn, by simp [afterGeneration]⟩

/-- The call trace only ever grows. -/
lemma getOllamaResponseE_calls_mono (prov : ChatProvider) (env : ChatEnv) :
    ∀ fuel w, ∃ rest,
      (getOllamaResponseE prov env fuel w).2.calls = w.calls ++ rest := by
  intro fuel
  induction fuel with
  | zero => intro w; exact ⟨[], by simp [getOllamaResponseE]⟩
  | succ f ih =>
    intro w
    rcases hr : withRetry prov.retryOptions (env.catalog w.catalogIdx)
      defaultIsRetryable with ⟨n, ds, rc⟩
    cases rc with
    | error e =>
      obtain ⟨rest, hrest⟩ := genFinish_calls prov env (chatUrl w)
        (addWarning (afterCatalog w (tagsUrl w) n))
      refine ⟨List.replicate n (NetCall.catalogGet (tagsUrl w)) ++ rest, ?_⟩
      simp only [getOllamaResponseE, hr]
      rw [hrest]
      simp [addWarning, afterCatalog]
    | ok models =>
      by_cases hm : w.store.modelName ∈ models
      · obtain ⟨rest, hrest⟩ := genFinish_calls prov env (chatUrl w)
          (afterCatalog w (tagsUrl w) n)
        refine ⟨List.replicate n (NetCall.catalogGet (tagsUrl w)) ++ rest, ?_⟩
        simp only [getOllamaResponseE, hr]
        rw [if_pos (by simpa using hm)]
        rw [hrest]
        simp [afterCatalog]
      · have hm' : models.contains w.store.modelName = true → False := by
          intro hc
          exact hm (by simpa using hc)
        cases hch : env.choice w.choiceIdx with
        | none =>
          refine ⟨List.replicate n (NetCall.catalogGet (tagsUrl w)), ?_⟩
          simp only [getOllamaResponseE, hr, hch]
          rw [if_neg hm']
          simp [bumpChoice, afterCatalog]
        | some c =>
          cases c with
          | installModel =>
            refine ⟨List.replicate n (NetCall.catalogGet (tagsUrl w)), ?_⟩
            simp only [getOllamaResponseE, hr, hch]
            rw [if_neg hm']
            simp [bumpChoice, afterCatalog]
          | changeModel =>
            cases hpk : env.pick w.pickIdx with
            | none =>
              refine ⟨List.replicate n (NetCall.catalogGet (tagsUrl w)), ?_⟩
              simp only [getOllamaResponseE, hr, hch, hpk]
              rw [if_neg hm']
              simp [bumpPick, bumpChoice, afterCatalog]
            | some nm =>
              obtain ⟨rest₁, hrec⟩ := ih
                (setModel (bumpPick (bumpChoice (afterCatalog w (tagsUrl w) n))) nm)
              rcases hrun : getOllamaResponseE prov env f
                  (setModel (bumpPick (bumpChoice (afterCatalog w (tagsUrl w) n))) nm)
                with ⟨r0, w5⟩
              rw [hrun] at hrec
              simp only [setModel, bumpPick, bumpChoice, afterCatalog] at hrec
              cases r0 with
              | ok r =>
                refine ⟨List.replicate n (NetCall.catalogGet (tagsUrl w)) ++ rest₁, ?_⟩
                simp only [getOllamaResponseE, hr, hch, hpk, hrun]
                rw [if_neg hm']
                rw [hrec]
                simp [setModel, bumpPick, bumpChoice, afterCatalog]
              | error e =>
                obtain ⟨rest₂, hg⟩ := genFinish_calls prov env (chatUrl w)
                  (addWarning w5)
                refine ⟨List.replicate n (NetCall.catalogGet (tagsUrl w)) ++ rest₁
                  ++ rest₂, ?_⟩
                simp only [getOllamaResponseE, hr, hch, hpk, hrun]
                rw [if_neg hm']
                rw [hg]
                simp only [addWarning] at *
                rw [hrec]
                simp

/-- C8: no public operation throws past its own boundary — `getOllamaResponse`
always resolves to an in-band value (for every environment, fuel and world),
`getCorrectionFromOllama` always resolves (to a string or `null`), and the
`fixSelectedCode` command always resolves to an in-band outcome. -/
theorem claim_c8_no_throw :
    (∀ (prov : ChatProvider) (env : ChatEnv) (fuel : Nat) (w : ChatWorld),
      ∃ r w', getOllamaResponseE prov env fuel w = (Except.ok r, w')) ∧
    (∀ post, ∃ r, getCorrectionFromOllama post = Except.ok r) ∧
    (∀ (active : Option Editor) (env : FixCmdEnv),
      ∃ p, fixSelectedCode active env = Except.ok p) := by
  have h2 : ∀ post, ∃ r, getCorrectionFromOllama post = Except.ok r := by
    intro post
    cases post with
    | error e => exact ⟨none, rfl⟩
    | ok resp =>
      cases hresp : resp.response with
      | none => exact ⟨none, by simp [getCorrectionFromOllama, getCorrectionTryBody, hresp]⟩
      | some s =>
        exact ⟨some (extractCode s), by
          simp [getCorrectionFromOllama, getCorrectionTryBody, hresp]⟩
  refine ⟨?_, h2, ?_⟩
  · intro prov env fuel
    induction fuel with
    | zero => intro w; exact ⟨ChatResult.noFuel, w, rfl⟩
    | succ f ih =>
      intro w
      rcases hr : withRetry prov.retryOptions (env.catalog w.catalogIdx)
        defaultIsRetryable with ⟨n, ds, rc⟩
      cases rc with
      | error e =>
        obtain ⟨r, w', hg⟩ := genFinish_ok prov env (chatUrl w)
          (addWarning (afterCatalog w (tagsUrl w) n))
        exact ⟨r, w', by simp only [getOllamaResponseE, hr]; exact hg⟩
      | ok models =>
        by_cases hm : models.contains w.store.modelName = true
        · obtain ⟨r, w', hg⟩ := genFinish_ok prov env (chatUrl w)
            (afterCatalog w (tagsUrl w) n)
          exact ⟨r, w', by
            simp only [getOllamaResponseE, hr]
            rw [if_pos hm]
            exact hg⟩
        · cases hch : env.choice w.choiceIdx with
          | none =>
            exact ⟨ChatResult.notInstalled w.store.modelName, _, by
              simp only [getOllamaResponseE, hr, hch]
              rw [if_neg hm]⟩
          | some c =>
            cases c with
            | installModel =>
              exact ⟨ChatResult.installStarted w.store.modelName, _, by
                simp only [getOllamaResponseE, hr, hch]
                rw [if_neg hm]⟩
            | changeModel =>
              cases hpk : env.pick w.pickIdx with
              | none =>
                exact ⟨ChatResult.notInstalled w.store.modelName, _, by
                  simp only [getOllamaResponseE, hr, hch, hpk]
                  rw [if_neg hm]⟩
              | some nm =>
                obtain ⟨r, w5, hrec⟩ := ih
                  (setModel (bumpPick (bumpChoice (afterCatalog w (tagsUrl w) n))) nm)
                exact ⟨r, w5, by
                  simp only [getOllamaResponseE, hr, hch, hpk, hrec]
                  rw [if_neg hm]⟩
  · intro active env
    obtain ⟨r, hr⟩ := h2 env.post
    cases active with
    | none => exact ⟨(FixOutcome.noEditor, none), rfl⟩
    | some ed =>
      simp only [fixSelectedCode, hr]
      repeat' first
        | exact ⟨_, rfl⟩
        | split

/-- C3, counterexample: with base URL `"not a url"` the operation does NOT
return a Configuration failure and network calls ARE attempted — the URL
parse failure is caught, the default base URL is substituted, and both the
catalog request and the generation request are dispatched against it,
resolving with the generation result. -/
theorem claim_c3_counterexample :
    urlParses "not a url" = false ∧
    getOllamaResponseE (mkChatProvider c3store) okEnv 2 (initialWorld c3store) =
      (Except.ok (ChatResult.content "hi"),
       { store := c3store
         calls := [NetCall.catalogGet "http://localhost:11434/api/tags",
                   NetCall.generationPost "http://localhost:11434/api/chat"]
         catalogIdx := 1, genIdx := 1, choiceIdx := 0, pickIdx := 0,
         warnings := 0 }) := by
  exact ⟨by decide, by decide⟩

/-- Every invocation dispatches at least one catalog GET: the call trace grows
by `n ≥ 1` catalog attempts against the resolved base URL, then whatever the
rest of the run adds. -/
lemma getOllamaResponseE_catalog_attempted (prov : ChatProvider) (env : ChatEnv)
    (fuel : Nat) (w : ChatWorld) :
    ∃ n rest, 1 ≤ n ∧
      (getOllamaResponseE prov env (fuel + 1) w).2.calls =
        w.calls ++ List.replicate n (NetCall.catalogGet (tagsUrl w)) ++ rest := by
  rcases hr : withRetry prov.retryOptions (env.catalog w.catalogIdx)
    defaultIsRetryable with ⟨n, ds, rc⟩
  have hn : 1 ≤ n := by
    have := withRetry_fst_pos prov.retryOptions (env.catalog w.catalogIdx)
      defaultIsRetryable
    rw [hr] at this
    exact this
  cases rc with
  | error e =>
    obtain ⟨rest, hrest⟩ := genFinish_calls prov env (chatUrl w)
      (addWarning (afterCatalog w (tagsUrl w) n))
    refine ⟨n, rest, hn, ?_⟩
    simp only [getOllamaResponseE, hr]
    rw [hrest]
    simp [addWarning, afterCatalog]
  | ok models =>
    by_cases hm : models.contains w.store.modelName = true
    · obtain ⟨rest, hrest⟩ := genFinish_calls prov env (chatUrl w)
        (afterCatalog w (tagsUrl w) n)
      refine ⟨n, rest, hn, ?_⟩
      simp only [getOllamaResponseE, hr]
      rw [if_pos hm, hrest]
      simp [afterCatalog]
    · cases hch : env.choice w.choiceIdx with
      | none =>
        refine ⟨n, [], hn, ?_⟩
        simp only [getOllamaResponseE, hr, hch]
        rw [if_neg hm]
        simp [bumpChoice, afterCatalog]
      | some c =>
        cases c with
        | installModel =>
          refine ⟨n, [], hn, ?_⟩
          simp only [getOllamaResponseE, hr, hch]
          rw [if_neg hm]
          simp [bumpChoice, afterCatalog]
        | changeModel =>
          cases hpk : env.pick w.pickIdx with
          | none =>
            refine ⟨n, [], hn, ?_⟩
            simp only [getOllamaResponseE, hr, hch, hpk]
            rw [if_neg hm]
            simp [bumpPick, bumpChoice, afterCatalog]
          | some nm =>
            obtain ⟨rest₁, hrec⟩ := getOllamaResponseE_calls_mono prov env fuel
              (setModel (bumpPick (bumpChoice (afterCatalog w (tagsUrl w) n))) nm)
            rcases hrun : getOllamaResponseE prov env fuel
                (setModel (bumpPick (bumpChoice (afterCatalog w (tagsUrl w) n))) nm)
              with ⟨r0, w5⟩
            rw [hrun] at hrec
            simp only [setModel, bumpPick, bumpChoice, afterCatalog] at hrec
            cases r0 with
            | ok r =>
              refine ⟨n, rest₁, hn, ?_⟩
              simp only [getOllamaResponseE, hr, hch, hpk, hrun]
              rw [if_neg hm]
              rw [hrec]
            | error e =>
              obtain ⟨rest₂, hg⟩ := genFinish_calls prov env (chatUrl w)
                (addWarning w5)
              refine ⟨n, rest₁ ++ rest₂, hn, ?_⟩
              simp only [getOllamaResponseE, hr, hch, hpk, hrun]
              rw [if_neg hm, hg]
              simp only [addWarning] at *
              rw [hrec]
              simp

/-- C3 (amended): a malformed base URL is not a failure — the parse error is
caught and the default base URL `http://localhost:11434` is substituted, after
which the operation proceeds normally, dispatching at least one catalog
request per invocation.  The generation request is skipped with an in-band
invalid-protocol error only when the resolved full URL does not start with
`http://` or `https://` (possible only for a well-formed non-network scheme),
and even then the catalog request is still attempted, as the concrete
`ftp://host` run shows. -/
theorem claim_c3_invalid_url_behavior :
    (∀ s, urlParses s = false → resolveBaseApiUrl s = defaultBaseUrl) ∧
    (∀ (prov : ChatProvider) (env : ChatEnv) (fuel : Nat) (w : ChatWorld),
      ∃ n rest, 1 ≤ n ∧
        (getOllamaResponseE prov env (fuel + 1) w).2.calls =
          w.calls ++ List.replicate n (NetCall.catalogGet (tagsUrl w)) ++ rest) ∧
    (∀ (prov : ChatProvider) (env : ChatEnv) (u : String) (w : ChatWorld),
      (strStartsWith "http://" u || strStartsWith "https://" u) = false →
      genFinish prov env u w =
        (Except.ok (ChatResult.ollamaError (JsError.invalidProtocol u)), w)) ∧
    getOllamaResponseE (mkChatProvider c3ftpStore) okEnv 2 (initialWorld c3ftpStore) =
      (Except.ok (ChatResult.ollamaError (JsError.invalidProtocol "ftp://host/api/chat")),
       { store := c3ftpStore
         calls := [NetCall.catalogGet "ftp://host/api/tags"]
         catalogIdx := 1, genIdx := 0, choiceIdx := 0, pickIdx := 0,
         warnings := 0 }) := by
  refine ⟨?_, getOllamaResponseE_catalog_attempted, ?_, by decide⟩
  · intro s hs
    simp [resolveBaseApiUrl, hs]
  · intro prov env u w hg
    exact genFinish_bad_protocol prov env u w hg

/-- Witness for C3 (amended): the malformed URL of the scenario falls back to
the default base URL, and a non-http(s) full URL resolves in-band without a
generation dispatch. -/
theorem claim_c3_invalid_url_behavior_witness :
    resolveBaseApiUrl "not a url" = defaultBaseUrl ∧
    genFinish (mkChatProvider c3store) okEnv "ftp://host/api/chat"
        (initialWorld c3store) =
      (Except.ok (ChatResult.ollamaError (JsError.invalidProtocol "ftp://host/api/chat")),
       initialWorld c3store) := by
  exact ⟨claim_c3_invalid_url_behavior.1 "not a url" (by decide),
    claim_c3_invalid_url_behavior.2.2.1 (mkChatProvider c3store) okEnv
      "ftp://host/api/chat" (initialWorld c3store) (by decide)⟩

/-- C4, counterexample: the retry configuration is NOT re-read at the start of
each operation.  A provider constructed when `maxRetries = 1` still retries
once (two catalog attempts) after the store changes to `maxRetries = 0`; a
provider constructed from the changed store performs a single attempt.  If the
configuration were re-read fresh, both runs would behave identically. -/
theorem claim_c4_counterexample :
    c4storeNew = { c4storeOld with maxRetries := 0 } ∧
    (getOllamaResponseE (mkChatProvider c4storeOld) flakyEnv 1
        (initialWorld c4storeNew)).2.calls =
      [NetCall.catalogGet "http://h/api/tags", NetCall.catalogGet "http://h/api/tags",
       NetCall.generationPost "http://h/api/chat"] ∧
    (getOllamaResponseE (mkChatProvider c4storeNew) flakyEnv 1
        (initialWorld c4storeNew)).2.calls =
      [NetCall.catalogGet "http://h/api/tags",
       NetCall.generationPost "http://h/api/chat"] := by
  exact ⟨rfl, by decide, by decide⟩

lemma genFinish_set_store (prov : ChatProvider) (env : ChatEnv) (u : String)
    (w : ChatWorld) (σs : ConfigStore) :
    genFinish prov env u { w with store := σs } =
      ((genFinish prov env u w).1,
       { (genFinish prov env u w).2 with store := σs }) := by
  obtain ⟨st, cs, ci, gi, chi, pi, wa⟩ := w
  unfold genFinish generationTryBody afterGeneration
  by_cases hg : (strStartsWith "http://" u || strStartsWith "https://" u) = true
  · simp only [hg, if_true]
    rcases h : withRetry prov.retryOptions (env.generation gi)
      defaultIsRetryable with ⟨n, ds, rc⟩
    cases rc with
    | ok resp =>
      obtain ⟨mc, raw⟩ := resp
      cases mc <;> rfl
    | error e => rfl
  · simp only [hg, Bool.false_eq_true, if_false]

/-- A run of `getOllamaResponse` never reads the retry keys of the current
store: overwriting them changes nothing but the stored values themselves. -/
lemma getOllamaResponseE_retryCfg_invariant (prov : ChatProvider) (env : ChatEnv)
    (a : Nat) (b c : ℚ) :
    ∀ fuel w,
      getOllamaResponseE prov env fuel { w with store := setRetryCfg w.store a b c } =
        ((getOllamaResponseE prov env fuel w).1,
         { (getOllamaResponseE prov env fuel w).2 with
             store := setRetryCfg (getOllamaResponseE prov env fuel w).2.store a b c }) := by
  intro fuel
  induction fuel with
  | zero => intro w; rfl
  | succ f ih =>
    intro w
    obtain ⟨st, cs, ci, gi, chi, pi, wa⟩ := w
    rcases hr : withRetry prov.retryOptions (env.catalog ci)
      defaultIsRetryable with ⟨n, ds, rc⟩
    cases rc with
    | error e =>
      simp only [getOllamaResponseE, hr, tagsUrl, chatUrl, afterCatalog,
        addWarning, setRetryCfg]
      have hst : (genFinish prov env
          (resolveBaseApiUrl st.ollamaApiUrl ++ "/api/chat")
          ⟨st, cs ++ List.replicate n (NetCall.catalogGet
            (resolveBaseApiUrl st.ollamaApiUrl ++ "/api/tags")),
            ci + 1, gi, chi, pi, wa + 1⟩).2.store = st :=
        genFinish_store prov env _ _
      rw [hst]
      exact genFinish_set_store prov env
        (resolveBaseApiUrl st.ollamaApiUrl ++ "/api/chat")
        ⟨st, cs ++ List.replicate n (NetCall.catalogGet
          (resolveBaseApiUrl st.ollamaApiUrl ++ "/api/tags")),
          ci + 1, gi, chi, pi, wa + 1⟩
        (ConfigStore.mk st.ollamaApiUrl st.modelName a b c)
    | ok models =>
      by_cases hm : models.contains (st.modelName) = true
      · simp only [getOllamaResponseE, hr, tagsUrl, chatUrl, afterCatalog,
          setRetryCfg, if_pos hm]
        have hst : (genFinish prov env
            (resolveBaseApiUrl st.ollamaApiUrl ++ "/api/chat")
            ⟨st, cs ++ List.replicate n (NetCall.catalogGet
              (resolveBaseApiUrl st.ollamaApiUrl ++ "/api/tags")),
              ci + 1, gi, chi, pi, wa⟩).2.store = st :=
          genFinish_store prov env _ _
        rw [hst]
        exact genFinish_set_store prov env
          (resolveBaseApiUrl st.ollamaApiUrl ++ "/api/chat")
          ⟨st, cs ++ List.replicate n (NetCall.catalogGet
            (resolveBaseApiUrl st.ollamaApiUrl ++ "/api/tags")),
            ci + 1, gi, chi, pi, wa⟩
          (ConfigStore.mk st.ollamaApiUrl st.modelName a b c)
      · cases hch : env.choice chi with
        | none =>
          simp only [getOllamaResponseE, hr, tagsUrl, chatUrl, afterCatalog,
            bumpChoice, setRetryCfg, if_neg hm, hch]
        | some ch =>
          cases ch with
          | installModel =>
            simp only [getOllamaResponseE, hr, tagsUrl, chatUrl, afterCatalog,
              bumpChoice, setRetryCfg, if_neg hm, hch]
          | changeModel =>
            cases hpk : env.pick pi with
            | none =>
              simp only [getOllamaResponseE, hr, tagsUrl, chatUrl, afterCatalog,
                bumpChoice, bumpPick, setRetryCfg, if_neg hm, hch, hpk]
            | some nm =>
              have hinner := ih
                ⟨⟨st.ollamaApiUrl, nm, st.maxRetries, st.retryDelay,
                  st.backoffMultiplier⟩,
                  cs ++ List.replicate n (NetCall.catalogGet
                    (resolveBaseApiUrl st.ollamaApiUrl ++ "/api/tags")),
                  ci + 1, gi, chi + 1, pi + 1, wa⟩
              rcases hrun : getOllamaResponseE prov env f
                  ⟨⟨st.ollamaApiUrl, nm, st.maxRetries, st.retryDelay,
                    st.backoffMultiplier⟩,
                    cs ++ List.replicate n (NetCall.catalogGet
                      (resolveBaseApiUrl st.ollamaApiUrl ++ "/api/tags")),
                    ci + 1, gi, chi + 1, pi + 1, wa⟩
                with ⟨r0, w5⟩
              rw [hrun] at hinner
              simp only [setRetryCfg] at hinner
              cases r0 with
              | ok r =>
                simp only [getOllamaResponseE, hr, tagsUrl, chatUrl, afterCatalog,
                  bumpChoice, bumpPick, setModel, setRetryCfg, if_neg hm, hch,
                  hpk, hrun, hinner]
              | error e0 =>
                simp only [getOllamaResponseE, hr, tagsUrl, chatUrl, afterCatalog,
                  bumpChoice, bumpPick, setModel, setRetryCfg, if_neg hm, hch,
                  hpk, hrun, hinner, addWarning]
                have hst : (genFinish prov env
                    (resolveBaseApiUrl st.ollamaApiUrl ++ "/api/chat")
                    ⟨w5.store, w5.calls, w5.catalogIdx, w5.genIdx, w5.choiceIdx,
                      w5.pickIdx, w5.warnings + 1⟩).2.store = w5.store :=
                  genFinish_store prov env _ _
                rw [hst]
                exact genFinish_set_store prov env
                  (resolveBaseApiUrl st.ollamaApiUrl ++ "/api/chat")
                  ⟨w5.store, w5.calls, w5.catalogIdx, w5.genIdx, w5.choiceIdx,
                    w5.pickIdx, w5.warnings + 1⟩
                  (ConfigStore.mk w5.store.ollamaApiUrl w5.store.modelName a b c)

/-- C4 (amended): the retry configuration is captured once, by the
`RetryManager` constructed with the chat provider, and cached for all
subsequent operations of that provider: overwriting the retry keys of the
current store does not change any run of an existing provider, and the change
takes effect only for a provider constructed afterwards. -/
theorem claim_c4_retry_config_cached :
    (∀ s, (mkChatProvider s).retryOptions = readRetryOptions s) ∧
    (∀ (s : ConfigStore) (a : Nat) (b c : ℚ),
      (mkChatProvider (setRetryCfg s a b c)).retryOptions =
        { maxRetries := a, retryDelay := b, backoffMultiplier := c }) ∧
    (∀ (prov : ChatProvider) (env : ChatEnv) (fuel : Nat) (w : ChatWorld)
      (a : Nat) (b c : ℚ),
      (getOllamaResponseE prov env fuel
          { w with store := setRetryCfg w.store a b c }).1 =
        (getOllamaResponseE prov env fuel w).1 ∧
      (getOllamaResponseE prov env fuel
          { w with store := setRetryCfg w.store a b c }).2.calls =
        (getOllamaResponseE prov env fuel w).2.calls) := by
  refine ⟨fun s => rfl, fun s a b c => rfl, ?_⟩
  intro prov env fuel w a b c
  have h := getOllamaResponseE_retryCfg_invariant prov env a b c fuel w
  rw [h]
  exact ⟨rfl, rfl⟩

/-! ### Claims C6 and C7 -/

/-- C6: a failing model-availability check never blocks the primary operation.
When the retried catalog check ends in a failure, the whole call equals the
generation stage run on the world with the failed attempts recorded and one
warning logged — so the catalog failure is never the operation's result — and
(when the resolved URL passes the protocol guard) at least one generation POST
is dispatched. -/
theorem claim_c6_catalog_failure_swallowed (prov : ChatProvider) (env : ChatEnv)
    (fuel : Nat) (w : ChatWorld) (n : Nat) (ds : List ℚ) (e : AxiosErrorInfo)
    (hcat : withRetry prov.retryOptions (env.catalog w.catalogIdx)
      defaultIsRetryable = (n, ds, Except.error e)) :
    getOllamaResponseE prov env (fuel + 1) w =
      genFinish prov env (chatUrl w) (addWarning (afterCatalog w (tagsUrl w) n)) ∧
    (addWarning (afterCatalog w (tagsUrl w) n)).warnings = w.warnings + 1 ∧
    ((strStartsWith "http://" (chatUrl w) || strStartsWith "https://" (chatUrl w))
        = true →
      ∃ k, 1 ≤ k ∧
        (getOllamaResponseE prov env (fuel + 1) w).2.calls =
          w.calls ++ List.replicate n (NetCall.catalogGet (tagsUrl w))
            ++ List.replicate k (NetCall.generationPost (chatUrl w))) := by
  have hmain : getOllamaResponseE prov env (fuel + 1) w =
      genFinish prov env (chatUrl w) (addWarning (afterCatalog w (tagsUrl w) n)) := by
    simp only [getOllamaResponseE, hcat]
  refine ⟨hmain, rfl, ?_⟩
  intro hg
  obtain ⟨k, hk, hcalls⟩ := genFinish_good_protocol_calls prov env (chatUrl w)
    (addWarning (afterCatalog w (tagsUrl w) n)) hg
  refine ⟨k, hk, ?_⟩
  rw [hmain, hcalls]
  simp [addWarning, afterCatalog]

/-- Witness for C6: with the catalog check failing outright, the run equals
the generation stage and still resolves with the generation's content. -/
theorem claim_c6_catalog_failure_swallowed_witness :
    getOllamaResponseE (mkChatProvider c6store) c6env 1 (initialWorld c6store) =
      genFinish (mkChatProvider c6store) c6env (chatUrl (initialWorld c6store))
        (addWarning (afterCatalog (initialWorld c6store)
          (tagsUrl (initialWorld c6store)) 1)) ∧
    (getOllamaResponseE (mkChatProvider c6store) c6env 1 (initialWorld c6store)).1 =
      Except.ok (ChatResult.content "hi") := by
  have h := claim_c6_catalog_failure_swallowed (mkChatProvider c6store) c6env 0
    (initialWorld c6store) 1 [] eTimedOut (by decide)
  exact ⟨h.1, by decide⟩

/-- C7: switching to an installed model.  If the catalog lists `L` (first
attempt, stable across the two checks), the configured model is absent from
`L` by case-sensitive exact match, the user chooses to change model and picks
`m' ∈ L`, then: the picked name is persisted as the configured model; the
whole call re-runs from the top exactly once (any fuel ≥ 2 gives the same
run as fuel = 2), the second availability check finds `m'` present, and the
call proceeds to the generation stage. -/
theorem claim_c7_switch_model (prov : ChatProvider) (env : ChatEnv) (fuel : Nat)
    (w : ChatWorld) (L : List String) (m' : String)
    (hcat1 : env.catalog w.catalogIdx 1 = Except.ok L)
    (hmiss : L.contains w.store.modelName = false)
    (hchoice : env.choice w.choiceIdx = some UserChoice.changeModel)
    (hpick : env.pick w.pickIdx = some m')
    (hmem : L.contains m' = true)
    (hcat2 : env.catalog (w.catalogIdx + 1) 1 = Except.ok L) :
    getOllamaResponseE prov env (fuel + 2) w =
      genFinish prov env (chatUrl w)
        (afterCatalog
          (setModel (bumpPick (bumpChoice (afterCatalog w (tagsUrl w) 1))) m')
          (tagsUrl w) 1) ∧
    (getOllamaResponseE prov env (fuel + 2) w).2.store.modelName = m' ∧
    getOllamaResponseE prov env (fuel + 2) w = getOllamaResponseE prov env 2 w := by
  have hw1 : withRetry prov.retryOptions (env.catalog w.catalogIdx)
      defaultIsRetryable = (1, ([] : List ℚ), Except.ok L) :=
    withRetry_first_ok prov.retryOptions _ _ L hcat1
  have hw2 : withRetry prov.retryOptions (env.catalog (w.catalogIdx + 1))
      defaultIsRetryable = (1, ([] : List ℚ), Except.ok L) :=
    withRetry_first_ok prov.retryOptions _ _ L hcat2
  have hmiss' : ¬ (L.contains w.store.modelName = true) := by
    rw [hmiss]; exact Bool.false_ne_true
  -- one-step characterization of the outer call: the availability check finds
  -- the model missing, the user switches, and the call recurses once
  have hstep : ∀ fl : Nat, getOllamaResponseE prov env (fl + 1) w =
      (match getOllamaResponseE prov env fl
          (setModel (bumpPick (bumpChoice (afterCatalog w (tagsUrl w) 1))) m') with
        | (Except.ok r, w5) => (Except.ok r, w5)
        | (Except.error _, w5) =>
          genFinish prov env (chatUrl w) (addWarning w5)) := by
    intro fl
    simp only [getOllamaResponseE, hw1, hchoice, hpick]
    rw [if_neg hmiss']
  have key : ∀ g : Nat, getOllamaResponseE prov env (g + 2) w =
      genFinish prov env (chatUrl w)
        (afterCatalog
          (setModel (bumpPick (bumpChoice (afterCatalog w (tagsUrl w) 1))) m')
          (tagsUrl w) 1) := by
    intro g
    have hrec : getOllamaResponseE prov env (g + 1)
        (setModel (bumpPick (bumpChoice (afterCatalog w (tagsUrl w) 1))) m') =
        genFinish prov env (chatUrl w)
          (afterCatalog
            (setModel (bumpPick (bumpChoice (afterCatalog w (tagsUrl w) 1))) m')
            (tagsUrl w) 1) := by
      have hw2' : withRetry prov.retryOptions
          (env.catalog
            ((setModel (bumpPick (bumpChoice (afterCatalog w (tagsUrl w) 1))) m')
              |>.catalogIdx))
          defaultIsRetryable = (1, ([] : List ℚ), Except.ok L) := hw2
      simp only [getOllamaResponseE, hw2']
      rw [if_pos]
      · rfl
      · exact hmem
    rw [show g + 2 = (g + 1) + 1 from rfl, hstep (g + 1), hrec]
    obtain ⟨r, w', hgf⟩ := genFinish_ok prov env (chatUrl w)
      (afterCatalog
        (setModel (bumpPick (bumpChoice (afterCatalog w (tagsUrl w) 1))) m')
        (tagsUrl w) 1)
    rw [hgf]
  refine ⟨key fuel, ?_, ?_⟩
  · rw [key fuel, genFinish_store]
    rfl
  · rw [key fuel, show (2 : Nat) = 0 + 2 from rfl, key 0]

/-- Witness for C7 at the spec's scenario: `"bar"` is persisted as the model
name and the re-run proceeds to the generation stage. -/
theorem claim_c7_switch_model_witness :
    (getOllamaResponseE (mkChatProvider c7store) c7env 2
      (initialWorld c7store)).2.store.modelName = "bar" ∧
    getOllamaResponseE (mkChatProvider c7store) c7env 2 (initialWorld c7store) =
      genFinish (mkChatProvider c7store) c7env (chatUrl (initialWorld c7store))
        (afterCatalog
          (setModel (bumpPick (bumpChoice
            (afterCatalog (initialWorld c7store)
              (tagsUrl (initialWorld c7store)) 1))) "bar")
          (tagsUrl (initialWorld c7store)) 1) := by
  have h := claim_c7_switch_model (mkChatProvider c7store) c7env 0
    (initialWorld c7store) ["bar"] "bar" rfl (by decide) rfl rfl (by decide) rfl
  exact ⟨h.2.1, h.1⟩

/-! ### Claims C9 and C10 -/

/-- C9: an edit is issued only after a full successful result was obtained,
the result differs from the selected text, and the active editor, document and
selection were re-validated; a failed correction (`null`) never issues an
edit; an absent action leaves editors untouched; and the single edit action
is a no-op on any other document. -/
theorem claim_c9_apply_only_after_success :
    (∀ (active : Option Editor) (env : FixCmdEnv) (out : FixOutcome)
      (act : EditAction),
      fixSelectedCode active env = Except.ok (out, some act) →
      ∃ ed corr cur, active = some ed ∧ ed.sel.isEmpty = false ∧
        env.cancelledBeforeRequest = false ∧ env.cancelledAfterRequest = false ∧
        getCorrectionFromOllama env.post = Except.ok (some corr) ∧
        corr ≠ getTextIn ed.doc ed.sel ∧
        env.editorAfter = some cur ∧ cur.docId = ed.docId ∧ cur.sel = ed.sel ∧
        act = { targetDocId := ed.docId, range := ed.sel, newText := corr }) ∧
    (∀ (active : Option Editor) (env : FixCmdEnv)
      (r : FixOutcome × Option EditAction),
      getCorrectionFromOllama env.post = Except.ok none →
      fixSelectedCode active env = Except.ok r → r.2 = none) ∧
    (∀ ed : Editor, applyEditOpt ed none = ed) ∧
    (∀ (ed : Editor) (act : EditAction), act.targetDocId ≠ ed.docId →
      applyEdit ed act = ed) := by
  refine ⟨?_, ?_, fun ed => rfl, ?_⟩
  · intro active env out act h
    cases active with
    | none => simp [fixSelectedCode] at h
    | some ed =>
      simp only [fixSelectedCode] at h
      by_cases hsel : ed.sel.isEmpty = true
      · rw [if_pos hsel] at h; simp at h
      · rw [if_neg hsel] at h
        by_cases hc1 : env.cancelledBeforeRequest = true
        · rw [if_pos hc1] at h; simp at h
        · rw [if_neg hc1] at h
          rcases hcorr : getCorrectionFromOllama env.post with e | corr
          · rw [hcorr] at h; simp at h
          · rw [hcorr] at h
            dsimp only at h
            by_cases hc2 : env.cancelledAfterRequest = true
            · rw [if_pos hc2] at h; simp at h
            · rw [if_neg hc2] at h
              cases corr with
              | none => simp at h
              | some correctedCode =>
                dsimp only at h
                by_cases heq : correctedCode = getTextIn ed.doc ed.sel
                · rw [if_pos heq] at h; simp at h
                · rw [if_neg heq] at h
                  cases hafter : env.editorAfter with
                  | none => rw [hafter] at h; simp at h
                  | some cur =>
                    rw [hafter] at h
                    dsimp only at h
                    by_cases hmatch : cur.docId = ed.docId ∧ cur.sel = ed.sel
                    · rw [if_pos hmatch] at h
                      simp only [Except.ok.injEq, Prod.mk.injEq,
                        Option.some.injEq] at h
                      exact ⟨ed, correctedCode, cur, rfl,
                        Bool.eq_false_iff.mpr hsel,
                        Bool.eq_false_iff.mpr hc1,
                        Bool.eq_false_iff.mpr hc2,
                        rfl, heq, rfl, hmatch.1, hmatch.2, h.2.symm⟩
                    · rw [if_neg hmatch] at h; simp at h
  · intro active env r hnone h
    cases active with
    | none =>
      simp only [fixSelectedCode] at h
      cases h; rfl
    | some ed =>
      simp only [fixSelectedCode, hnone] at h
      by_cases hsel : ed.sel.isEmpty = true
      · rw [if_pos hsel] at h; cases h; rfl
      · rw [if_neg hsel] at h
        by_cases hc1 : env.cancelledBeforeRequest = true
        · rw [if_pos hc1] at h; cases h; rfl
        · rw [if_neg hc1] at h
          by_cases hc2 : env.cancelledAfterRequest = true
          · rw [if_pos hc2] at h; cases h; rfl
          · rw [if_neg hc2] at h; cases h; rfl
  · intro ed act hne
    simp only [applyEdit]
    rw [if_neg (show ¬ ed.docId = act.targetDocId from fun h => hne h.symm)]

/-- Witness for C9: a successful differing correction with unchanged
selection issues exactly the full-replacement edit of the captured range. -/
theorem claim_c9_apply_only_after_success_witness :
    ∃ ed corr cur, (some ed0 : Option Editor) = some ed ∧
      ed.sel.isEmpty = false ∧
      fixEnvChanged.cancelledBeforeRequest = false ∧
      fixEnvChanged.cancelledAfterRequest = false ∧
      getCorrectionFromOllama fixEnvChanged.post = Except.ok (some corr) ∧
      corr ≠ getTextIn ed.doc ed.sel ∧
      fixEnvChanged.editorAfter = some cur ∧ cur.docId = ed.docId ∧
      cur.sel = ed.sel ∧
      { targetDocId := 0, range := { start := 0, stop := 3 },
        newText := "xyz" : EditAction } =
        { targetDocId := ed.docId, range := ed.sel, newText := corr } := by
  exact claim_c9_apply_only_after_success.1 (some ed0) fixEnvChanged
    FixOutcome.applied
    { targetDocId := 0, range := { start := 0, stop := 3 }, newText := "xyz" }
    (by decide)

/-- C10: when the corrected code is character-for-character identical to the
selected text, the command issues no edit at all and informs the user that no
changes are suggested. -/
theorem claim_c10_identical_no_edit (ed : Editor) (env : FixCmdEnv)
    (hsel : ed.sel.isEmpty = false)
    (hc1 : env.cancelledBeforeRequest = false)
    (hc2 : env.cancelledAfterRequest = false)
    (hcorr : getCorrectionFromOllama env.post =
      Except.ok (some (getTextIn ed.doc ed.sel))) :
    fixSelectedCode (some ed) env =
      Except.ok (FixOutcome.noChangesSuggested, none) := by
  simp [fixSelectedCode, hsel, hc1, hc2, hcorr]

/-- Witness for C10: identical correction → no edit, "no changes" notice. -/
theorem claim_c10_identical_no_edit_witness :
    fixSelectedCode (some ed0) fixEnvSame =
      Except.ok (FixOutcome.noChangesSuggested, none) := by
  exact claim_c10_identical_no_edit ed0 fixEnvSame (by decide) rfl rfl (by decide)

end OllamaFixer
